import Mathlib

/-!
Verification of the ExamGrader repository's duplicate-submission detection,
integrity-penalty reconciliation, and grading-call orchestration.

The embedding follows the source:
  - `generateContentHash` (src/context/AppContext.tsx, lines 136-155): sort the
    uploaded files by name, concatenate their raw bytes, SHA-256, hex-encode.
  - `gradeExam` (src/unnamed/part_002, lines 386-518): credential check, bounded
    retry loop around the external call, response normalization, error taxonomy.
  - `handleGradeExam` / `handleRestoreArchivedResult` / `handleArchiveResult`
    (src/context/AppContext.tsx, lines 420-607): duplicate pre-check, session
    submission registry, archive penalty rewrite and restore.

Machine integers are modelled as `Nat` (bytes, 32-bit words with explicit
`% 2^32`) and `Int` (marks/scores).  JavaScript `Array.prototype.sort` is
stable per the ECMAScript specification; it is modelled with Mathlib's stable
`List.insertionSort`, with `localeCompare` on file names modelled as the
codepoint order on strings (ties, i.e. comparator result 0, only for identical
names).
-/

namespace ExamGrader

/-! ### SHA-256 (model of `crypto.subtle.digest('SHA-256', buffer)`)

A byte-level FIPS 180-4 SHA-256 over `List Nat` (each entry a byte `< 256`),
32-bit words kept as `Nat` reduced modulo `2^32`. -/

/-- Truncate to a 32-bit word. -/
def w32 (x : Nat) : Nat := x % 4294967296

/-- Right rotation of a 32-bit word by `n` bits. -/
def rotr32 (n x : Nat) : Nat := w32 ((x >>> n) ||| (x <<< (32 - n)))

/-- SHA-256 `Ch` function. -/
def ch32 (x y z : Nat) : Nat := (x &&& y) ^^^ ((4294967295 ^^^ x) &&& z)

/-- SHA-256 `Maj` function. -/
def maj32 (x y z : Nat) : Nat := (x &&& y) ^^^ (x &&& z) ^^^ (y &&& z)

/-- SHA-256 big Sigma-0. -/
def bigS0 (x : Nat) : Nat := rotr32 2 x ^^^ rotr32 13 x ^^^ rotr32 22 x

/-- SHA-256 big Sigma-1. -/
def bigS1 (x : Nat) : Nat := rotr32 6 x ^^^ rotr32 11 x ^^^ rotr32 25 x

/-- SHA-256 small sigma-0. -/
def smallS0 (x : Nat) : Nat := rotr32 7 x ^^^ rotr32 18 x ^^^ (x >>> 3)

/-- SHA-256 small sigma-1. -/
def smallS1 (x : Nat) : Nat := rotr32 17 x ^^^ rotr32 19 x ^^^ (x >>> 10)

/-- The 64 SHA-256 round constants (FIPS 180-4, in decimal). -/
def sha256K : List Nat :=
  [1116352408, 1899447441, 3049323471, 3921009573, 961987163,
   1508970993, 2453635748, 2870763221, 3624381080, 310598401,
   607225278, 1426881987, 1925078388, 2162078206, 2614888103,
   3248222580, 3835390401, 4022224774, 264347078, 604807628,
   770255983, 1249150122, 1555081692, 1996064986, 2554220882,
   2821834349, 2952996808, 3210313671, 3336571891, 3584528711,
   113926993, 338241895, 666307205, 773529912, 1294757372,
   1396182291, 1695183700, 1986661051, 2177026350, 2456956037,
   2730485921, 2820302411, 3259730800, 3345764771, 3516065817,
   3600352804, 4094571909, 275423344, 430227734, 506948616,
   659060556, 883997877, 958139571, 1322822218, 1537002063,
   1747873779, 1955562222, 2024104815, 2227730452, 2361852424,
   2428436474, 2756734187, 3204031479, 3329325298]

/-- The SHA-256 initial hash state (FIPS 180-4, in decimal). -/
def sha256H0 : List Nat :=
  [1779033703, 3144134277, 1013904242, 2773480762, 1359893119,
   2600822924, 528734635, 1541459225]

/-- Pack big-endian bytes into 32-bit words. -/
def bytesToWords32 : List Nat → List Nat
  | b0 :: b1 :: b2 :: b3 :: rest =>
      ((b0 <<< 24) ||| (b1 <<< 16) ||| (b2 <<< 8) ||| b3) :: bytesToWords32 rest
  | _ => []

/-- One message-schedule extension step: append word `w[i]` computed from
`w[i-2]`, `w[i-7]`, `w[i-15]`, `w[i-16]`. -/
def extendOnce (ws : List Nat) : List Nat :=
  ws ++ [w32 (smallS1 (ws.getD (ws.length - 2) 0) + ws.getD (ws.length - 7) 0 +
              smallS0 (ws.getD (ws.length - 15) 0) + ws.getD (ws.length - 16) 0)]

/-- Extend the 16-word block schedule by `k` further words. -/
def extendSchedule : List Nat → Nat → List Nat
  | ws, 0 => ws
  | ws, k + 1 => extendSchedule (extendOnce ws) k

/-- One SHA-256 compression round on the state `[a,b,c,d,e,f,g,h]` with round
input `(k, w)`. -/
def sha256Round (st : List Nat) (kw : Nat × Nat) : List Nat :=
  match st with
  | [a, b, c, d, e, f, g, hh] =>
    let t1 := w32 (hh + bigS1 e + ch32 e f g + kw.1 + kw.2)
    let t2 := w32 (bigS0 a + maj32 a b c)
    [w32 (t1 + t2), a, b, c, w32 (d + t1), e, f, g]
  | other => other

/-- Compress one 64-byte block into the running hash state. -/
def sha256Compress (hs : List Nat) (block : List Nat) : List Nat :=
  let ws := extendSchedule (bytesToWords32 block) 48
  let final := (sha256K.zip ws).foldl sha256Round hs
  (hs.zip final).map fun p => w32 (p.1 + p.2)

/-- Big-endian 64-bit length field. -/
def bigEndian64 (n : Nat) : List Nat :=
  [(n >>> 56) &&& 255, (n >>> 48) &&& 255, (n >>> 40) &&& 255, (n >>> 32) &&& 255,
   (n >>> 24) &&& 255, (n >>> 16) &&& 255, (n >>> 8) &&& 255, n &&& 255]

/-- SHA-256 padding: `0x80`, zeros to 56 mod 64, then the bit length. -/
def sha256Pad (msg : List Nat) : List Nat :=
  msg ++ 128 :: List.replicate ((119 - msg.length % 64) % 64) 0 ++ bigEndian64 (8 * msg.length)

/-- Split into 64-byte chunks; the first argument is recursion fuel (the list
length suffices since each step consumes at least one element). -/
def chunks64 : Nat → List Nat → List (List Nat)
  | 0, _ => []
  | _, [] => []
  | fuel + 1, l => l.take 64 :: chunks64 fuel (l.drop 64)

/-- SHA-256 digest of a byte list, as 32 bytes. -/
def sha256 (msg : List Nat) : List Nat :=
  let padded := sha256Pad msg
  let final := (chunks64 padded.length padded).foldl sha256Compress sha256H0
  final.foldr
    (fun wrd acc =>
      ((wrd >>> 24) &&& 255) :: ((wrd >>> 16) &&& 255) :: ((wrd >>> 8) &&& 255) :: (wrd &&& 255) :: acc)
    []

/-- Lowercase hex digit, as produced by JavaScript `toString(16)`. -/
def hexDigit (n : Nat) : Char := if n < 10 then Char.ofNat (48 + n) else Char.ofNat (87 + n)

/-- Two lowercase hex digits for one byte (`b.toString(16).padStart(2, '0')`). -/
def byteToHex (b : Nat) : List Char := [hexDigit (b / 16 % 16), hexDigit (b % 16)]

/-- Hex-encode a byte list. -/
def bytesToHex (bs : List Nat) : String := String.mk (bs.foldr (fun b acc => byteToHex b ++ acc) [])

/-! ### Content fingerprinting (`generateContentHash`, AppContext.tsx 136-155) -/

/-- An uploaded file: its name and raw byte content. -/
structure FileData where
  name : String
  bytes : List Nat
deriving DecidableEq, Repr

/-- Lexicographic comparison of character lists, the model of the result of
`a.name.localeCompare(b.name) <= 0` (codepoint order; the comparator returns 0
only on identical names). -/
def lexLe : List Char → List Char → Bool
  | [], _ => true
  | _ :: _, [] => false
  | a :: as, b :: bs => if a < b then true else if b < a then false else lexLe as bs

/-- Comparator used by `files.sort((a, b) => a.name.localeCompare(b.name))`. -/
def fileLE (a b : FileData) : Prop := lexLe a.name.data b.name.data = true

instance : DecidableRel fileLE :=
  fun a b => inferInstanceAs (Decidable (lexLe a.name.data b.name.data = true))

/-- `[...files].sort((a, b) => a.name.localeCompare(b.name))`: a stable sort by
file name (ECMAScript `Array.prototype.sort` is stable; `List.insertionSort`
is the stable sort with the same tie behaviour). -/
def sortFilesByName (files : List FileData) : List FileData := files.insertionSort fileLE

/-- Concatenation of the raw bytes of all files, in sorted-by-name order
(the `combinedBuffer` built in `generateContentHash`). -/
def combinedBuffer (files : List FileData) : List Nat :=
  ((sortFilesByName files).map FileData.bytes).flatten

/-- `generateContentHash`: sort files by name, concatenate the bytes, SHA-256,
hex-encode. -/
def generateContentHash (files : List FileData) : String :=
  bytesToHex (sha256 (combinedBuffer files))

/-! ### Grading-result data model (src/types.ts) -/

/-- `WebPlagiarismSource` from src/types.ts. -/
structure WebPlagiarismSource where
  sourceUrl : String
  originalText : String
  studentText : String
deriving DecidableEq, Repr

/-- `CheatingAnalysis` from src/types.ts; the optional fields are `Option`s
(`none` = the JSON field is absent). -/
structure CheatingAnalysis where
  detected : Bool
  reasoning : String
  webSources : Option (List WebPlagiarismSource) := none
  isAiGenerated : Option Bool := none
deriving DecidableEq, Repr

/-- `DetailedFeedbackItem` from src/types.ts.  Marks are JavaScript numbers
carrying integer values in this domain; modelled as `Int`. -/
structure DetailedFeedbackItem where
  question : String
  studentAnswer : String
  idealAnswer : String
  evaluation : String
  marksAwarded : Int
  maxMarks : Int
deriving DecidableEq, Repr

/-- `GradingResult` from src/types.ts. -/
structure GradingResult where
  studentName : String
  studentGroup : String
  score : Int
  totalMarks : Int
  cheatingAnalysis : CheatingAnalysis
  strengths : List String
  weaknesses : List String
  detailedFeedback : List DetailedFeedbackItem
  id : String
  timestamp : String
deriving DecidableEq, Repr

/-! ### External grading service (`gradeExam`, src/unnamed/part_002 386-518) -/

/-- The parsed JSON object obtained from one successful external call
(`resultJson` after `JSON.parse`).  Its `studentName`, `studentGroup` and
`totalMarks` fields are overwritten during normalization; they are retained
here to show that overwriting. -/
structure RawJson where
  studentName : String
  studentGroup : String
  score : Int
  totalMarks : Int
  cheatingAnalysis : CheatingAnalysis
  strengths : List String
  weaknesses : List String
  detailedFeedback : List DetailedFeedbackItem
deriving DecidableEq, Repr

/-- A JavaScript exception from one attempt (the external call plus JSON
parsing): whether it is a `SyntaxError` (thrown by `JSON.parse`), and its
`message`. -/
structure JsError where
  isSyntaxError : Bool
  message : String
deriving DecidableEq, Repr

/-- Substring test over char lists (`String.prototype.includes`). -/
def listHasPre : List Char → List Char → Bool
  | [], _ => true
  | _ :: _, [] => false
  | a :: ps, b :: ss => a == b && listHasPre ps ss

/-- `haystack.includes(needle)` on strings. -/
def strIncludes (haystack needle : String) : Bool :=
  go needle.data haystack.data
where
  go (pat : List Char) : List Char → Bool
    | [] => pat.isEmpty
    | c :: rest => listHasPre pat (c :: rest) || go pat rest

/-- The error taxonomy thrown by the service (`throw new Error(...)` keys in
part_002 500-517) plus the key used by the missing-credential early return in
`handleGradeExam` (AppContext.tsx 420-425). -/
inductive ErrorKind where
  | API_KEY_MISSING
  | API_KEY_MISSING_SETTINGS
  | API_KEY_INVALID
  | RATE_LIMIT_ERROR
  | SAFETY_ERROR
  | JSON_PARSE_ERROR
  | PAYLOAD_SIZE_ERROR
  | UNEXPECTED_GRADING_ERROR
deriving DecidableEq, Repr

/-- `e.message?.includes('429')` — the code's definition of the retryable
rate-limit error class. -/
def isRateLimitError (e : JsError) : Bool := strIncludes e.message "429"

/-- The `lastError` translation ladder at the end of `gradeExam`
(part_002 500-517), in source order. -/
def translateJsError (e : JsError) : ErrorKind :=
  if e.isSyntaxError then .JSON_PARSE_ERROR
  else if strIncludes e.message "API key not valid" then .API_KEY_INVALID
  else if strIncludes e.message "429" then .RATE_LIMIT_ERROR
  else if strIncludes e.message "SAFETY" then .SAFETY_ERROR
  else if strIncludes e.message "Request payload size exceeds the limit" then .PAYLOAD_SIZE_ERROR
  else .UNEXPECTED_GRADING_ERROR

/-- `const MAX_RETRIES = 3` (part_002 437). -/
def MAX_RETRIES : Nat := 3

/-- `const RETRY_DELAY_MS = 2000` (part_002 438). -/
def RETRY_DELAY_MS : Nat := 2000

/-- The retry loop of `gradeExam` (part_002 441-498).  One attempt is an
index into `call` (the external call plus parsing: `.ok` a parsed object or
`.error` the thrown exception).  `remaining = MAX_RETRIES - 1 - attempt`
encodes the loop guard `attempt < MAX_RETRIES - 1`; the second component
records the fixed delay slept before each retry. -/
def attemptLoop (call : Nat → Except JsError RawJson) :
    Nat → Nat → Except JsError RawJson × List Nat
  | attempt, remaining =>
    match call attempt with
    | .ok r => (.ok r, [])
    | .error e =>
      match remaining with
      | 0 => (.error e, [])
      | rem + 1 =>
        if isRateLimitError e then
          let p := attemptLoop call (attempt + 1) rem
          (p.1, RETRY_DELAY_MS :: p.2)
        else (.error e, [])

/-- The normalization applied to a successful parsed response
(part_002 470-486): force `totalMarks` to the requested value, recompute
`score` as the sum of `marksAwarded` (overwriting on mismatch), overwrite the
identity fields, stamp a fresh creation id and the submission timestamp
(`submissionTimestamp || new Date().toISOString()`). -/
def mkGradingResult (studentName studentGroup : String) (totalMarks : Int)
    (submissionTimestamp : Option String) (nowId : String) (raw : RawJson) : GradingResult :=
  let calculatedScore := raw.detailedFeedback.foldl (fun s item => s + item.marksAwarded) 0
  { studentName := studentName
    studentGroup := studentGroup
    score := if raw.score ≠ calculatedScore then calculatedScore else raw.score
    totalMarks := totalMarks
    cheatingAnalysis := raw.cheatingAnalysis
    strengths := raw.strengths
    weaknesses := raw.weaknesses
    detailedFeedback := raw.detailedFeedback
    id := nowId
    timestamp := submissionTimestamp.getD nowId }

/-- `gradeExam` (part_002 386-518): credential check, retry loop, response
normalization, error translation.  The prompt construction and attachment
encoding do not affect the returned value and are absorbed into `call`;
`nowId` models the clock reading `new Date().toISOString()`. -/
def gradeExamService (apiKey studentName studentGroup : String) (totalMarks : Int)
    (submissionTimestamp : Option String) (nowId : String)
    (call : Nat → Except JsError RawJson) : Except ErrorKind GradingResult :=
  if apiKey = "" then .error .API_KEY_MISSING
  else
    match (attemptLoop call 0 (MAX_RETRIES - 1)).1 with
    | .ok raw => .ok (mkGradingResult studentName studentGroup totalMarks submissionTimestamp nowId raw)
    | .error e => .error (translateJsError e)

/-- Sum of `marksAwarded` over a feedback list (the `calculatedScore`
reduction, part_002 474; `item.marksAwarded || 0` is the identity on the
integer marks modelled here). -/
def sumMarks (items : List DetailedFeedbackItem) : Int :=
  items.foldl (fun s item => s + item.marksAwarded) 0

/-! ### Application state and grading orchestration (AppContext.tsx 158-607) -/

/-- One record of the session submission registry:
`{ studentName, contentHash }` (AppContext.tsx 187). -/
structure SubmissionRecord where
  studentName : String
  contentHash : String
deriving DecidableEq, Repr

/-- `Record<string, SubmissionRecord[]>` keyed by group: a JavaScript object,
modelled as an association list in key-insertion order. -/
abbrev Registry := List (String × List SubmissionRecord)

/-- `sessionSubmissions[group] || []`. -/
def lookupGroup (reg : Registry) (g : String) : List SubmissionRecord :=
  match List.find? (fun p => p.1 == g) reg with
  | some p => p.2
  | none => []

/-- `{ ...prev, [group]: subs }`: replace the group's entry, or append a new
key. -/
def setGroup (reg : Registry) (g : String) (subs : List SubmissionRecord) : Registry :=
  if List.any reg (fun p => p.1 == g) then
    List.map (fun p => if p.1 == g then (g, subs) else p) reg
  else reg ++ [(g, subs)]

/-- The `setSessionSubmissions` update after a successful call
(AppContext.tsx 477-484): append the `(studentName, contentHash)` record to
the group unless an identical record is already present. -/
def recordSubmission (reg : Registry) (g : String) (rec : SubmissionRecord) : Registry :=
  let existingSubs := lookupGroup reg g
  if existingSubs.any (fun s => s.studentName == rec.studentName && s.contentHash == rec.contentHash) then
    reg
  else setGroup reg g (existingSubs ++ [rec])

/-- The registry match lookup performed before the external call
(AppContext.tsx 450-454): first record in the group, in insertion order,
sharing the fingerprint and recorded under a different (character-identical
comparison) student name. -/
def findMatch (subs : List SubmissionRecord) (contentHash studentName : String) :
    Option String :=
  (subs.find? fun sub => sub.contentHash == contentHash && sub.studentName != studentName).map
    (·.studentName)

/-- Modelled from the spec: the locales module (`../i18n/locales`) imported by
`t` is not part of the source tree.  The spec requires "a fixed templated
reasoning string naming the second student"; `t('app.cheatingPenaltyReason',
{ studentName })` is modelled as a fixed template with the name substituted. -/
def cheatingPenaltyReason (studentName : String) : String :=
  "An identical answer sheet was detected with student " ++ studentName ++
    ". Cheating penalty applied."

/-- Modelled from the spec: `t('app.cheatingNotification', { studentName })`,
a fixed template naming the penalized (first) student. -/
def cheatingNotification (studentName : String) : String :=
  "Duplicate content detected; the archived result of " ++ studentName ++ " was penalized."

/-- Modelled from the spec: `t('app.restoreNotification', { studentName })`. -/
def restoreNotification (studentName : String) : String :=
  "The archived result of " ++ studentName ++ " was restored."

/-- The penalty rewrite of one archived entry (AppContext.tsx 492-502):
zero the score, zero every per-item `marksAwarded`, overwrite the integrity
analysis with `{detected: true, reasoning}`. -/
def penalizeResult (r : GradingResult) (reasoning : String) : GradingResult :=
  { r with
    score := 0
    detailedFeedback := r.detailedFeedback.map fun fb => { fb with marksAwarded := 0 }
    cheatingAnalysis := { detected := true, reasoning := reasoning } }

/-- The archive map of AppContext.tsx 488-505: penalize exactly the entries
whose `studentName` and `studentGroup` are character-identical to the matched
name and current group. -/
def applyPenalty (archive : List GradingResult) (matchedName group reasoning : String) :
    List GradingResult :=
  archive.map fun res =>
    if res.studentName == matchedName && res.studentGroup == group then
      penalizeResult res reasoning
    else res

/-- The archive entries the penalty map rewrites; the JavaScript single-pass
capture leaves `originalMatchedResult` holding the last of these. -/
def penaltyTargets (archive : List GradingResult) (matchedName group : String) :
    List GradingResult :=
  archive.filter fun res => res.studentName == matchedName && res.studentGroup == group

/-- `AppStep` (AppContext.tsx 118). -/
inductive AppStep where
  | studentInfo
  | fileUpload
  | grading
  | results
deriving DecidableEq, Repr

/-- The slice of the React component state involved in the grading cycle:
the persisted archive, the session registry, the pending penalty
transaction, and the per-cycle outputs. -/
structure AppState where
  apiKey : String
  archivedResults : List GradingResult
  sessionSubmissions : Registry
  penalizedArchiveEntry : Option (GradingResult × GradingResult)
  gradingResult : Option GradingResult
  errorKind : Option ErrorKind
  notification : Option String
  step : AppStep
  showSettings : Bool
deriving DecidableEq, Repr

/-- The user-provided inputs of one grading cycle. -/
structure GradeInput where
  studentName : String
  studentGroup : String
  examFiles : List FileData
  totalMarks : Int
  submissionTime : Option String
deriving DecidableEq, Repr

/-- Whitespace test for `String.prototype.trim` (space, tab, LF, CR). -/
def isWsChar (c : Char) : Bool :=
  c.toNat == 32 || c.toNat == 9 || c.toNat == 10 || c.toNat == 13

/-- `s.trim()`: strip leading and trailing whitespace. -/
def trimStr (s : String) : String :=
  String.mk (((s.data.dropWhile isWsChar).reverse.dropWhile isWsChar).reverse)

/-- ASCII lowering of one character (`toLowerCase` on the identifiers used
here). -/
def lowerChar (c : Char) : Char :=
  if 65 ≤ c.toNat ∧ c.toNat ≤ 90 then Char.ofNat (c.toNat + 32) else c

/-- `s.toLowerCase()`. -/
def lowerStr (s : String) : String := String.mk (s.data.map lowerChar)

/-- The duplicate-student pre-check (AppContext.tsx 429-432): a
case-insensitive comparison of trimmed student name and group against the
archive. -/
def isDuplicateStudent (archived : List GradingResult) (studentName studentGroup : String) :
    Bool :=
  archived.any fun result =>
    lowerStr (trimStr result.studentName) == lowerStr (trimStr studentName) &&
    lowerStr (trimStr result.studentGroup) == lowerStr (trimStr studentGroup)

/-- The body of `handleGradeExam` from line 440 on (after the credential,
input and duplicate pre-checks): clear the per-cycle outputs, fingerprint,
look up a registry match, run the external grading call, and on success
record the submission and apply the duplicate penalty to the archive.
`nowId` models the clock. -/
def gradeCycle (st : AppState) (inp : GradeInput) (nowId : String)
    (call : Nat → Except JsError RawJson) : AppState :=
  let st0 : AppState :=
    { st with
      step := .grading, errorKind := none, notification := none,
      gradingResult := none, penalizedArchiveEntry := none }
  let contentHash := generateContentHash inp.examFiles
  let groupSubmissions := lookupGroup st.sessionSubmissions inp.studentGroup
  let matchingStudentName := findMatch groupSubmissions contentHash inp.studentName
  match gradeExamService st.apiKey inp.studentName inp.studentGroup inp.totalMarks
      inp.submissionTime nowId call with
  | .error e => { st0 with errorKind := some e, step := .fileUpload }
  | .ok result =>
    let st1 : AppState :=
      { st0 with
        sessionSubmissions :=
          recordSubmission st0.sessionSubmissions inp.studentGroup
            ⟨inp.studentName, contentHash⟩ }
    let st2 : AppState :=
      match matchingStudentName with
      | none => st1
      | some m =>
        match (penaltyTargets st1.archivedResults m inp.studentGroup).getLast? with
        | none => st1
        | some originalMatchedResult =>
          let updatedArchive :=
            applyPenalty st1.archivedResults m inp.studentGroup
              (cheatingPenaltyReason inp.studentName)
          { st1 with
            archivedResults := updatedArchive
            notification := some (cheatingNotification m)
            penalizedArchiveEntry :=
              (updatedArchive.find? fun r => r.id == originalMatchedResult.id).map
                fun nr => (originalMatchedResult, nr) }
    { st2 with gradingResult := some result, step := .results }

/-- `handleGradeExam` (AppContext.tsx 420-527).  `userConfirms` is the
`window.confirm` answer to the duplicate-student warning. -/
def handleGradeExam (st : AppState) (inp : GradeInput) (userConfirms : Bool)
    (nowId : String) (call : Nat → Except JsError RawJson) : AppState :=
  if st.apiKey = "" then
    { st with errorKind := some .API_KEY_MISSING_SETTINGS, showSettings := true }
  else if inp.examFiles = [] ∨ inp.studentName = "" ∨ inp.studentGroup = "" then st
  else if isDuplicateStudent st.archivedResults inp.studentName inp.studentGroup = true ∧
      userConfirms = false then st
  else gradeCycle st inp nowId call

/-- `handleRestoreArchivedResult` (AppContext.tsx 529-546): replace every
archive entry carrying the original's id by the original, clear the pending
penalty transaction. -/
def handleRestoreArchivedResult (st : AppState) : AppState :=
  match st.penalizedArchiveEntry with
  | none => st
  | some (originalResult, _) =>
    { st with
      archivedResults :=
        st.archivedResults.map fun res =>
          if res.id == originalResult.id then originalResult else res
      penalizedArchiveEntry := none
      notification := some (restoreNotification originalResult.studentName) }

/-- `handleArchiveResult` (AppContext.tsx 565-571): prepend the current
result to the archive, then reset the per-cycle state (`handleReset`; the
session registry is kept). -/
def handleArchiveResult (st : AppState) : AppState :=
  match st.gradingResult with
  | none => st
  | some res =>
    { st with
      archivedResults := res :: st.archivedResults
      step := .studentInfo, gradingResult := none, errorKind := none,
      notification := none, penalizedArchiveEntry := none }

/-! ### Concrete sample data used by the closed witness statements -/

/-- A sample feedback list with marks 10, 8, 12, 10. -/
def sampleFeedback : List DetailedFeedbackItem :=
  [{ question := "Q1", studentAnswer := "a1", idealAnswer := "i1", evaluation := "e1",
     marksAwarded := 10, maxMarks := 10 },
   { question := "Q2", studentAnswer := "a2", idealAnswer := "i2", evaluation := "e2",
     marksAwarded := 8, maxMarks := 10 },
   { question := "Q3", studentAnswer := "a3", idealAnswer := "i3", evaluation := "e3",
     marksAwarded := 12, maxMarks := 12 },
   { question := "Q4", studentAnswer := "a4", idealAnswer := "i4", evaluation := "e4",
     marksAwarded := 10, maxMarks := 10 }]

/-- A sample parsed external response whose `score` field (55) disagrees with
the sum of its per-item marks (40). -/
def sampleRaw : RawJson :=
  { studentName := "ignored", studentGroup := "ignored", score := 55, totalMarks := 99,
    cheatingAnalysis := { detected := false, reasoning := "No issues found." },
    strengths := ["clear"], weaknesses := ["brief"], detailedFeedback := sampleFeedback }

/-- A sample parsed external response that is internally consistent. -/
def sampleRawB : RawJson :=
  { studentName := "ignored", studentGroup := "ignored", score := 30, totalMarks := 40,
    cheatingAnalysis := { detected := false, reasoning := "No issues found." },
    strengths := [], weaknesses := [],
    detailedFeedback :=
      [{ question := "Q1", studentAnswer := "x", idealAnswer := "y", evaluation := "z",
         marksAwarded := 30, maxMarks := 40 }] }

/-- A rate-limit exception as thrown by the external client. -/
def sampleRateLimitError : JsError := { isSyntaxError := false, message := "429 RESOURCE_EXHAUSTED" }

/-- A non-retryable exception. -/
def sampleSafetyError : JsError := { isSyntaxError := false, message := "Blocked for SAFETY reasons" }

/-- A call sequence that rate-limits on the first two attempts and succeeds on
the third. -/
def sampleFlakyCall : Nat → Except JsError RawJson :=
  fun i => if i < 2 then .error sampleRateLimitError else .ok sampleRaw

/-- An initial application state with an empty archive and registry. -/
def sampleState : AppState :=
  { apiKey := "k", archivedResults := [], sessionSubmissions := [],
    penalizedArchiveEntry := none, gradingResult := none, errorKind := none,
    notification := none, step := .studentInfo, showSettings := false }

/-- Submission inputs for the first student. -/
def sampleInputA : GradeInput :=
  { studentName := "alice", studentGroup := "g1", examFiles := [⟨"scan.png", [7, 7, 7]⟩],
    totalMarks := 40, submissionTime := some "2024-05-01T10:00" }

/-- Submission inputs for a second student handing in the same file bytes. -/
def sampleInputB : GradeInput :=
  { studentName := "bob", studentGroup := "g1", examFiles := [⟨"scan.png", [7, 7, 7]⟩],
    totalMarks := 40, submissionTime := some "2024-05-01T10:05" }

/-- The external calls used in the two-cycle duplicate scenario. -/
def sampleCallA : Nat → Except JsError RawJson := fun _ => .ok sampleRawB

/-- The external call answering the second (duplicate) submission. -/
def sampleCallB : Nat → Except JsError RawJson := fun _ => .ok sampleRaw

/-- The normalized result of grading the first sample submission. -/
def sampleResA : GradingResult :=
  mkGradingResult "alice" "g1" 40 (some "2024-05-01T10:00") "tA" sampleRawB

/-- The normalized result of grading the second sample submission. -/
def sampleResB : GradingResult :=
  mkGradingResult "bob" "g1" 40 (some "2024-05-01T10:05") "tB" sampleRaw

/-- The penalized copy of the first student's archived result. -/
def samplePenalized : GradingResult :=
  penalizeResult sampleResA (cheatingPenaltyReason "bob")

/-- The state after grading alice, archiving her result, and grading bob's
byte-identical submission. -/
def sampleDupState : AppState :=
  gradeCycle (handleArchiveResult (gradeCycle sampleState sampleInputA "tA" sampleCallA))
    sampleInputB "tB" sampleCallB

/-- An archived result stored under a padded, differently-cased name. -/
def sampleArchivedAlice : GradingResult :=
  { studentName := " Alice ", studentGroup := " G1", score := 30, totalMarks := 40,
    cheatingAnalysis := { detected := false, reasoning := "No issues found." },
    strengths := [], weaknesses := [], detailedFeedback := sampleFeedback,
    id := "2024-04-30T09:00:00.000Z", timestamp := "2024-04-30T08:55:00.000Z" }

/-- An archived result for student "john" in group "g1". -/
def sampleArchivedJohn : GradingResult :=
  { studentName := "john", studentGroup := "g1", score := 25, totalMarks := 40,
    cheatingAnalysis := { detected := false, reasoning := "No issues found." },
    strengths := [], weaknesses := [], detailedFeedback := sampleFeedback,
    id := "2024-04-29T09:00:00.000Z", timestamp := "2024-04-29T08:55:00.000Z" }

/-! ## Theorems -/

/-! ### Properties of the name comparator -/

theorem lexLe_cons (a b : Char) (as bs : List Char) :
    lexLe (a :: as) (b :: bs) = if a < b then true else if b < a then false else lexLe as bs :=
  rfl

theorem lexLe_total : ∀ x y : List Char, lexLe x y = true ∨ lexLe y x = true
  | [], _ => Or.inl rfl
  | _ :: _, [] => Or.inr rfl
  | a :: as, b :: bs => by
    rcases lt_trichotomy a b with h | h | h
    · simp [lexLe, h]
    · subst h
      simpa [lexLe] using lexLe_total as bs
    · simp [lexLe, h, lt_asymm h]

theorem lexLe_trans : ∀ x y z : List Char,
    lexLe x y = true → lexLe y z = true → lexLe x z = true
  | [], _, _ => by simp [lexLe]
  | _ :: _, [], _ => by simp [lexLe]
  | _ :: _, _ :: _, [] => by simp [lexLe]
  | a :: as, b :: bs, c :: cs => by
    intro hxy hyz
    rw [lexLe_cons] at hxy hyz ⊢
    rcases lt_trichotomy a b with hab | hab | hab
    · rcases lt_trichotomy b c with hbc | hbc | hbc
      · rw [if_pos (lt_trans hab hbc)]
      · subst hbc
        rw [if_pos hab]
      · rw [if_neg (lt_asymm hbc), if_pos hbc] at hyz
        exact absurd hyz (by simp)
    · subst hab
      rcases lt_trichotomy a c with hac | hac | hac
      · rw [if_pos hac]
      · subst hac
        rw [if_neg (lt_irrefl a), if_neg (lt_irrefl a)] at hxy hyz ⊢
        exact lexLe_trans as bs cs hxy hyz
      · rw [if_neg (lt_asymm hac), if_pos hac] at hyz
        exact absurd hyz (by simp)
    · rw [if_neg (lt_asymm hab), if_pos hab] at hxy
      exact absurd hxy (by simp)

theorem lexLe_antisymm : ∀ x y : List Char, lexLe x y = true → lexLe y x = true → x = y
  | [], [] => by simp
  | [], _ :: _ => by simp [lexLe]
  | _ :: _, [] => by simp [lexLe]
  | a :: as, b :: bs => by
    rcases lt_trichotomy a b with h | h | h
    · simp [lexLe, h, lt_asymm h]
    · subst h
      simpa [lexLe] using lexLe_antisymm as bs
    · simp [lexLe, h, lt_asymm h]

theorem fileLE_antisymm_names {a b : FileData} (h₁ : fileLE a b) (h₂ : fileLE b a) :
    a.name = b.name := by
  have h := lexLe_antisymm _ _ h₁ h₂
  obtain ⟨n, hn⟩ : ∃ n, a.name = n := ⟨a.name, rfl⟩
  obtain ⟨m, hm⟩ : ∃ m, b.name = m := ⟨b.name, rfl⟩
  rw [hn, hm] at h ⊢
  cases n
  cases m
  exact congrArg String.mk h

/-! ### Retry-loop and service lemmas -/

theorem attemptLoop_ok {call : Nat → Except JsError RawJson} {a rem : Nat} {r : RawJson}
    (h : call a = .ok r) : attemptLoop call a rem = (.ok r, []) := by
  unfold attemptLoop
  rw [h]

theorem attemptLoop_zero {call : Nat → Except JsError RawJson} {a : Nat} {e : JsError}
    (h : call a = .error e) : attemptLoop call a 0 = (.error e, []) := by
  unfold attemptLoop
  rw [h]

theorem attemptLoop_retry {call : Nat → Except JsError RawJson} {a rem : Nat} {e : JsError}
    (h : call a = .error e) (hrl : isRateLimitError e = true) :
    attemptLoop call a (rem + 1) =
      ((attemptLoop call (a + 1) rem).1, RETRY_DELAY_MS :: (attemptLoop call (a + 1) rem).2) := by
  conv_lhs => rw [attemptLoop.eq_def]
  simp [h, hrl]

theorem attemptLoop_stop {call : Nat → Except JsError RawJson} {a rem : Nat} {e : JsError}
    (h : call a = .error e) (hrl : isRateLimitError e = false) :
    attemptLoop call a rem = (.error e, []) := by
  unfold attemptLoop
  rw [h]
  cases rem with
  | zero => rfl
  | succ rem => simp [hrl]

theorem gradeExamService_ok_inv {k n g : String} {tm : Int} {ts : Option String}
    {now : String} {call : Nat → Except JsError RawJson} {res : GradingResult}
    (h : gradeExamService k n g tm ts now call = .ok res) :
    ∃ raw, (attemptLoop call 0 (MAX_RETRIES - 1)).1 = .ok raw ∧
      res = mkGradingResult n g tm ts now raw := by
  unfold gradeExamService at h
  by_cases hk : k = ""
  · rw [if_pos hk] at h
    exact absurd h (by simp)
  · rw [if_neg hk] at h
    cases hrun : (attemptLoop call 0 (MAX_RETRIES - 1)).1 with
    | ok raw =>
      rw [hrun] at h
      exact ⟨raw, rfl, (Except.ok.inj h).symm⟩
    | error e =>
      rw [hrun] at h
      exact absurd h (by simp)

theorem attemptLoop_congr : ∀ (rem a : Nat) {call call₂ : Nat → Except JsError RawJson},
    (∀ i, a ≤ i → i ≤ a + rem → call₂ i = call i) →
    attemptLoop call₂ a rem = attemptLoop call a rem := by
  intro rem
  induction rem with
  | zero =>
    intro a call call₂ h
    have ha : call₂ a = call a := h a le_rfl (by omega)
    cases hc : call a with
    | ok r => rw [attemptLoop_ok (ha.trans hc), attemptLoop_ok hc]
    | error e => rw [attemptLoop_zero (ha.trans hc), attemptLoop_zero hc]
  | succ rem ih =>
    intro a call call₂ h
    have ha : call₂ a = call a := h a le_rfl (by omega)
    cases hc : call a with
    | ok r => rw [attemptLoop_ok (ha.trans hc), attemptLoop_ok hc]
    | error e =>
      cases hrl : isRateLimitError e with
      | true =>
        rw [attemptLoop_retry (ha.trans hc) hrl, attemptLoop_retry hc hrl,
          ih (a + 1) fun i h₁ h₂ => h i (by omega) (by omega)]
      | false => rw [attemptLoop_stop (ha.trans hc) hrl, attemptLoop_stop hc hrl]

/-! ### Registry lemmas -/

theorem lookupGroup_setGroup_self (reg : Registry) (g : String)
    (subs : List SubmissionRecord) : lookupGroup (setGroup reg g subs) g = subs := by
  induction reg with
  | nil => simp [setGroup, lookupGroup]
  | cons p t ih =>
    by_cases hp : p.1 = g
    · simp [setGroup, lookupGroup, hp]
    · have hfp : (p.1 == g) = false := by simpa using hp
      have hlk : ∀ L : Registry, lookupGroup (p :: L) g = lookupGroup L g := by
        intro L
        unfold lookupGroup
        rw [List.find?_cons_of_neg _ (by simp [hfp])]
      by_cases ht : t.any (fun q => q.1 == g) = true
      · have hsg : setGroup (p :: t) g subs =
            p :: List.map (fun q => if q.1 == g then (g, subs) else q) t := by
          simp [setGroup, hfp, ht, hp]
        have hsgt : setGroup t g subs =
            List.map (fun q => if q.1 == g then (g, subs) else q) t := by
          simp [setGroup, ht]
        rw [hsg, hlk, ← hsgt, ih]
      · have hta : t.any (fun q => q.1 == g) = false := Bool.eq_false_iff.mpr ht
        have hsg : setGroup (p :: t) g subs = p :: (t ++ [(g, subs)]) := by
          simp [setGroup, hfp, hta]
        have hsgt : setGroup t g subs = t ++ [(g, subs)] := by
          simp [setGroup, hta]
        rw [hsg, hlk, ← hsgt, ih]

theorem recordSubmission_idem (reg : Registry) (g : String) (rec : SubmissionRecord) :
    recordSubmission (recordSubmission reg g rec) g rec = recordSubmission reg g rec := by
  unfold recordSubmission
  by_cases h : (lookupGroup reg g).any
      (fun s => s.studentName == rec.studentName && s.contentHash == rec.contentHash)
  · simp [h]
  · simp only [h, if_false, Bool.false_eq_true]
    rw [lookupGroup_setGroup_self]
    have hmem : ((lookupGroup reg g) ++ [rec]).any
        (fun s => s.studentName == rec.studentName && s.contentHash == rec.contentHash) = true := by
      simp
    simp [hmem]

/-! ### C2: score normalization -/

/-- C2: every grading result returned by a successful grading call has, after
normalization, `score` equal to the exact sum of `marksAwarded` over its
`detailedFeedback`, overriding any different score returned by the external
service. -/
theorem score_equals_sum_of_marks
    (apiKey studentName studentGroup : String) (totalMarks : Int)
    (ts : Option String) (nowId : String) (call : Nat → Except JsError RawJson)
    (res : GradingResult)
    (h : gradeExamService apiKey studentName studentGroup totalMarks ts nowId call = .ok res) :
    res.score = sumMarks res.detailedFeedback := by
  obtain ⟨raw, -, hres⟩ := gradeExamService_ok_inv h
  subst hres
  by_cases hsc : raw.score = raw.detailedFeedback.foldl (fun s item => s + item.marksAwarded) 0
  · simp [mkGradingResult, sumMarks, hsc]
  · simp [mkGradingResult, sumMarks, hsc]

/-- Witness for C2: per-item marks 10, 8, 12, 10 with a reported score of 55
normalize to score 40. -/
theorem score_equals_sum_of_marks_witness :
    gradeExamService "k" "S" "G" 40 none "t0" (fun _ => .ok sampleRaw) =
        .ok (mkGradingResult "S" "G" 40 none "t0" sampleRaw) ∧
      (mkGradingResult "S" "G" 40 none "t0" sampleRaw).score =
        sumMarks (mkGradingResult "S" "G" 40 none "t0" sampleRaw).detailedFeedback ∧
      (mkGradingResult "S" "G" 40 none "t0" sampleRaw).score = 40 ∧
      sampleRaw.score = 55 :=
  ⟨rfl,
   score_equals_sum_of_marks "k" "S" "G" 40 none "t0" (fun _ => .ok sampleRaw) _ rfl,
   by decide, by decide⟩

/-! ### C5: bounded retry, only for the rate-limit class -/

/-- C5: the external call is retried up to `MAX_RETRIES = 3` attempts with the
fixed `RETRY_DELAY_MS` delay between attempts, and only for the rate-limit
error class (`message.includes('429')`); any other error aborts immediately.
Rate-limit errors on attempts 1 and 2 followed by success on attempt 3 return
the result normally. -/
theorem retry_policy
    (apiKey n g : String) (tm : Int) (ts : Option String) (nowId : String)
    (call : Nat → Except JsError RawJson) (e₀ e₁ : JsError) (raw : RawJson)
    (hkey : apiKey ≠ "") :
    (call 0 = .error e₀ → isRateLimitError e₀ = true →
     call 1 = .error e₁ → isRateLimitError e₁ = true →
     call 2 = .ok raw →
     gradeExamService apiKey n g tm ts nowId call =
         .ok (mkGradingResult n g tm ts nowId raw) ∧
       (attemptLoop call 0 (MAX_RETRIES - 1)).2 = [RETRY_DELAY_MS, RETRY_DELAY_MS]) ∧
    (call 0 = .error e₀ → isRateLimitError e₀ = false →
     gradeExamService apiKey n g tm ts nowId call = .error (translateJsError e₀) ∧
       (attemptLoop call 0 (MAX_RETRIES - 1)).2 = []) ∧
    ((∀ i, i < MAX_RETRIES → call i = .error e₀) → isRateLimitError e₀ = true →
     gradeExamService apiKey n g tm ts nowId call = .error (translateJsError e₀)) ∧
    (∀ call₂ : Nat → Except JsError RawJson, (∀ i, i < MAX_RETRIES → call₂ i = call i) →
     gradeExamService apiKey n g tm ts nowId call₂ = gradeExamService apiKey n g tm ts nowId call) := by
  refine ⟨?_, ?_, ?_, ?_⟩
  · intro h0 hrl0 h1 hrl1 h2
    have hloop : attemptLoop call 0 (MAX_RETRIES - 1) = (.ok raw, [RETRY_DELAY_MS, RETRY_DELAY_MS]) := by
      show attemptLoop call 0 2 = _
      rw [attemptLoop_retry h0 hrl0]
      rw [show (0 : Nat) + 1 = 1 from rfl, attemptLoop_retry h1 hrl1]
      rw [show (1 : Nat) + 1 = 2 from rfl, attemptLoop_ok h2]
    constructor
    · unfold gradeExamService
      rw [if_neg hkey, hloop]
    · rw [hloop]
  · intro h0 hrl0
    have hloop : attemptLoop call 0 (MAX_RETRIES - 1) = (.error e₀, []) := attemptLoop_stop h0 hrl0
    constructor
    · unfold gradeExamService
      rw [if_neg hkey, hloop]
    · rw [hloop]
  · intro hall hrl
    have hloop : attemptLoop call 0 (MAX_RETRIES - 1) = (.error e₀, [RETRY_DELAY_MS, RETRY_DELAY_MS]) := by
      show attemptLoop call 0 2 = _
      rw [attemptLoop_retry (hall 0 (by decide)) hrl]
      rw [show (0 : Nat) + 1 = 1 from rfl, attemptLoop_retry (hall 1 (by decide)) hrl]
      rw [show (1 : Nat) + 1 = 2 from rfl, attemptLoop_zero (hall 2 (by decide))]
    unfold gradeExamService
    rw [if_neg hkey, hloop]
  · intro call₂ hsame
    have hM : MAX_RETRIES = 3 := rfl
    unfold gradeExamService
    rw [attemptLoop_congr (MAX_RETRIES - 1) 0 fun i h₁ h₂ => hsame i (by
      rw [hM] at h₂ ⊢
      omega)]

/-- Witness for C5: rate limits on the first two attempts, success on the
third; the result is returned normally after two fixed-delay retries. -/
theorem retry_policy_witness :
    gradeExamService "k" "S" "G" 40 none "t0" sampleFlakyCall =
        .ok (mkGradingResult "S" "G" 40 none "t0" sampleRaw) ∧
      (attemptLoop sampleFlakyCall 0 (MAX_RETRIES - 1)).2 = [RETRY_DELAY_MS, RETRY_DELAY_MS] :=
  (retry_policy "k" "S" "G" 40 none "t0" sampleFlakyCall sampleRateLimitError
      sampleRateLimitError sampleRaw (by decide)).1
    rfl (by decide) rfl (by decide) rfl

/-! ### C7: missing credential fails first -/

/-- C7: with no access credential configured, grading fails with the
distinguished credential-missing error kind, uniformly in the uploaded files
and in the external call — so before any fingerprinting or network
interaction. -/
theorem credential_missing_fails_first
    (st : AppState) (inp : GradeInput) (confirm : Bool) (nowId : String)
    (call : Nat → Except JsError RawJson) (hkey : st.apiKey = "") :
    handleGradeExam st inp confirm nowId call =
      { st with errorKind := some .API_KEY_MISSING_SETTINGS, showSettings := true } ∧
    (∀ (n g : String) (tm : Int) (ts : Option String) (now : String)
       (call₂ : Nat → Except JsError RawJson),
       gradeExamService "" n g tm ts now call₂ = .error .API_KEY_MISSING) ∧
    (∀ (inp₂ : GradeInput) (confirm₂ : Bool) (now₂ : String)
       (call₂ : Nat → Except JsError RawJson),
       handleGradeExam st inp₂ confirm₂ now₂ call₂ = handleGradeExam st inp confirm nowId call) := by
  refine ⟨?_, ?_, ?_⟩
  · unfold handleGradeExam
    rw [if_pos hkey]
  · intro n g tm ts now call₂
    unfold gradeExamService
    rw [if_pos rfl]
  · intro inp₂ confirm₂ now₂ call₂
    unfold handleGradeExam
    rw [if_pos hkey, if_pos hkey]

/-- Witness for C7. -/
theorem credential_missing_fails_first_witness :
    handleGradeExam { sampleState with apiKey := "" } sampleInputA true "t0"
        (fun _ => .ok sampleRaw) =
      { sampleState with
          apiKey := "", errorKind := some .API_KEY_MISSING_SETTINGS, showSettings := true } :=
  (credential_missing_fails_first { sampleState with apiKey := "" } sampleInputA true "t0"
    (fun _ => .ok sampleRaw) rfl).1

/-! ### C6: failures leave registry and archive untouched -/

/-- C6: every failure of a grading cycle — the missing-credential early return
as well as any error from the external call (invalid credential, rate-limit
exhaustion, content rejection, payload too large, parse error, unexpected) —
sets a distinguished error kind and leaves the submission registry and the
archive exactly as they were. -/
theorem failure_preserves_registry_and_archive
    (st : AppState) (inp : GradeInput) (confirm : Bool) (nowId : String)
    (call : Nat → Except JsError RawJson) :
    (st.apiKey = "" →
      (handleGradeExam st inp confirm nowId call).archivedResults = st.archivedResults ∧
      (handleGradeExam st inp confirm nowId call).sessionSubmissions = st.sessionSubmissions ∧
      (handleGradeExam st inp confirm nowId call).errorKind = some .API_KEY_MISSING_SETTINGS) ∧
    (∀ e : ErrorKind,
      gradeExamService st.apiKey inp.studentName inp.studentGroup inp.totalMarks
          inp.submissionTime nowId call = .error e →
      (gradeCycle st inp nowId call).archivedResults = st.archivedResults ∧
      (gradeCycle st inp nowId call).sessionSubmissions = st.sessionSubmissions ∧
      (gradeCycle st inp nowId call).errorKind = some e ∧
      (gradeCycle st inp nowId call).gradingResult = none) := by
  constructor
  · intro hkey
    unfold handleGradeExam
    rw [if_pos hkey]
    exact ⟨rfl, rfl, rfl⟩
  · intro e hserv
    unfold gradeCycle
    rw [hserv]
    exact ⟨rfl, rfl, rfl, rfl⟩

/-- Witness for C6: a content-safety rejection surfaces as `SAFETY_ERROR` and
mutates neither the archive nor the registry. -/
theorem failure_preserves_registry_and_archive_witness :
    (gradeCycle sampleState sampleInputA "t0" (fun _ => .error sampleSafetyError)).archivedResults =
        sampleState.archivedResults ∧
      (gradeCycle sampleState sampleInputA "t0"
          (fun _ => .error sampleSafetyError)).sessionSubmissions =
        sampleState.sessionSubmissions ∧
      (gradeCycle sampleState sampleInputA "t0" (fun _ => .error sampleSafetyError)).errorKind =
        some .SAFETY_ERROR ∧
      (gradeCycle sampleState sampleInputA "t0" (fun _ => .error sampleSafetyError)).gradingResult =
        none :=
  (failure_preserves_registry_and_archive sampleState sampleInputA true "t0"
    (fun _ => .error sampleSafetyError)).2 .SAFETY_ERROR rfl

/-! ### C8: registry idempotence and first-match lookup -/

/-- C8: recording the same `(group, student, fingerprint)` triple twice is
idempotent — the second recording changes nothing, so no lookup result
changes — and `findMatch` scans in insertion order, returning the first
recorded student in the group, other than the querying one, sharing the
fingerprint. -/
theorem registry_record_idempotent_and_first_match
    (reg : Registry) (g : String) (rec : SubmissionRecord) (hash q : String)
    (sub : SubmissionRecord) (subs : List SubmissionRecord) :
    recordSubmission (recordSubmission reg g rec) g rec = recordSubmission reg g rec ∧
    (∀ hash₂ q₂ : String,
      findMatch (lookupGroup (recordSubmission (recordSubmission reg g rec) g rec) g) hash₂ q₂ =
        findMatch (lookupGroup (recordSubmission reg g rec) g) hash₂ q₂) ∧
    findMatch [] hash q = none ∧
    findMatch (sub :: subs) hash q =
      (if sub.contentHash = hash ∧ sub.studentName ≠ q then some sub.studentName
       else findMatch subs hash q) := by
  refine ⟨recordSubmission_idem reg g rec, ?_, rfl, ?_⟩
  · intro hash₂ q₂
    rw [recordSubmission_idem]
  · by_cases hc : sub.contentHash = hash ∧ sub.studentName ≠ q
    · rw [if_pos hc]
      unfold findMatch
      rw [List.find?_cons_of_pos _ (by simp [hc.1, bne_iff_ne, hc.2])]
      rfl
    · rw [if_neg hc]
      unfold findMatch
      rw [List.find?_cons_of_neg _ (by
        simp only [Bool.and_eq_true, beq_iff_eq, bne_iff_ne, not_and]
        intro h₁ h₂
        exact hc ⟨h₁, h₂⟩)]

/-! ### C9: the duplicate-student pre-check -/

/-- C9: the pre-check before grading compares student identifier and group
against the archive case-insensitively with trimming, and it only warns: a
confirming user always proceeds to the grading cycle, duplicate or not. -/
theorem precheck_case_insensitive_and_never_blocks
    (st : AppState) (inp : GradeInput) (nowId : String)
    (call : Nat → Except JsError RawJson)
    (hkey : st.apiKey ≠ "") (hfiles : inp.examFiles ≠ [])
    (hname : inp.studentName ≠ "") (hgroup : inp.studentGroup ≠ "") :
    (isDuplicateStudent st.archivedResults inp.studentName inp.studentGroup = true ↔
      ∃ r ∈ st.archivedResults,
        lowerStr (trimStr r.studentName) = lowerStr (trimStr inp.studentName) ∧
        lowerStr (trimStr r.studentGroup) = lowerStr (trimStr inp.studentGroup)) ∧
    handleGradeExam st inp true nowId call = gradeCycle st inp nowId call := by
  constructor
  · unfold isDuplicateStudent
    rw [List.any_eq_true]
    constructor
    · rintro ⟨r, hr, hcond⟩
      simp only [Bool.and_eq_true, beq_iff_eq] at hcond
      exact ⟨r, hr, hcond.1, hcond.2⟩
    · rintro ⟨r, hr, h₁, h₂⟩
      exact ⟨r, hr, by simp [h₁, h₂]⟩
  · unfold handleGradeExam
    rw [if_neg hkey, if_neg (by
      intro h
      rcases h with h | h | h
      exacts [hfiles h, hname h, hgroup h]), if_neg (by
      rintro ⟨-, h⟩
      exact Bool.noConfusion h)]

/-- Witness for C9: an archived " Alice " in group " G1" is flagged as a
duplicate of "ALICE" in "g1", and with the warning confirmed the grading
cycle still runs. -/
theorem precheck_case_insensitive_and_never_blocks_witness :
    (isDuplicateStudent [sampleArchivedAlice] "ALICE" "g1" = true ↔
      ∃ r ∈ [sampleArchivedAlice],
        lowerStr (trimStr r.studentName) = lowerStr (trimStr "ALICE") ∧
        lowerStr (trimStr r.studentGroup) = lowerStr (trimStr "g1")) ∧
      handleGradeExam
          { sampleState with archivedResults := [sampleArchivedAlice] }
          { sampleInputA with studentName := "ALICE", studentGroup := "g1" } true "t0"
          (fun _ => .ok sampleRaw) =
        gradeCycle { sampleState with archivedResults := [sampleArchivedAlice] }
          { sampleInputA with studentName := "ALICE", studentGroup := "g1" } "t0"
          (fun _ => .ok sampleRaw) ∧
      isDuplicateStudent [sampleArchivedAlice] "ALICE" "g1" = true :=
  ⟨(precheck_case_insensitive_and_never_blocks
      { sampleState with archivedResults := [sampleArchivedAlice] }
      { sampleInputA with studentName := "ALICE", studentGroup := "g1" } "t0"
      (fun _ => .ok sampleRaw) (by decide) (by decide) (by decide) (by decide)).1,
   (precheck_case_insensitive_and_never_blocks
      { sampleState with archivedResults := [sampleArchivedAlice] }
      { sampleInputA with studentName := "ALICE", studentGroup := "g1" } "t0"
      (fun _ => .ok sampleRaw) (by decide) (by decide) (by decide) (by decide)).2,
   by decide⟩

/-! ### C10: registry match and penalty use exact, case-sensitive equality -/

/-- C10: unlike the trimmed case-insensitive pre-check, the registry match
excludes only records whose student name is character-identical to the
querying one, and the penalty rewrites exactly the archive entries whose
name and group are character-identical to the matched pair — so the same
bytes under two names differing only in case count as different students. -/
theorem registry_and_penalty_case_sensitive
    (n₁ n₂ hash g reason : String) (rest : List SubmissionRecord)
    (archive : List GradingResult) (hne : n₁ ≠ n₂) :
    findMatch (⟨n₁, hash⟩ :: rest) hash n₂ = some n₁ ∧
    findMatch (⟨n₁, hash⟩ :: rest) hash n₁ = findMatch rest hash n₁ ∧
    applyPenalty archive n₁ g reason =
      archive.map fun r =>
        if r.studentName = n₁ ∧ r.studentGroup = g then penalizeResult r reason else r := by
  refine ⟨?_, ?_, ?_⟩
  · unfold findMatch
    rw [List.find?_cons_of_pos _ (by simp [bne_iff_ne]; exact hne)]
    rfl
  · unfold findMatch
    rw [List.find?_cons_of_neg _ (by simp)]
  · unfold applyPenalty
    refine List.map_congr_left fun r _ => ?_
    by_cases hc : r.studentName = n₁ ∧ r.studentGroup = g
    · rw [if_pos (by simp [hc.1, hc.2]), if_pos hc]
    · rw [if_neg (by
        simp only [Bool.and_eq_true, beq_iff_eq, not_and]
        intro h₁ h₂
        exact hc ⟨h₁, h₂⟩), if_neg hc]

/-- Witness for C10: identical bytes recorded as "john" match a query by
"John", while a query by "john" is excluded; the penalty map rewrites the
"john" entry and leaves a "John" entry alone. -/
theorem registry_and_penalty_case_sensitive_witness :
    findMatch [⟨"john", "h1"⟩] "h1" "John" = some "john" ∧
      findMatch [⟨"john", "h1"⟩] "h1" "john" = findMatch [] "h1" "john" ∧
      applyPenalty [sampleArchivedJohn] "john" "g1" "r" =
        [if sampleArchivedJohn.studentName = "john" ∧ sampleArchivedJohn.studentGroup = "g1" then
            penalizeResult sampleArchivedJohn "r"
          else sampleArchivedJohn] ∧
      applyPenalty [sampleArchivedJohn] "John" "g1" "r" = [sampleArchivedJohn] :=
  ⟨(registry_and_penalty_case_sensitive "john" "John" "h1" "g1" "r" []
      [sampleArchivedJohn] (by decide)).1,
   (registry_and_penalty_case_sensitive "john" "John" "h1" "g1" "r" []
      [sampleArchivedJohn] (by decide)).2.1,
   (registry_and_penalty_case_sensitive "john" "John" "h1" "g1" "r" []
      [sampleArchivedJohn] (by decide)).2.2,
   by decide⟩

/-! ### Grade-cycle step lemmas -/

theorem gradeCycle_no_match (st : AppState) (inp : GradeInput) (nowId : String)
    (call : Nat → Except JsError RawJson) (res : GradingResult)
    (hreg : lookupGroup st.sessionSubmissions inp.studentGroup = [])
    (hserv : gradeExamService st.apiKey inp.studentName inp.studentGroup inp.totalMarks
        inp.submissionTime nowId call = .ok res) :
    gradeCycle st inp nowId call =
      { st with
          sessionSubmissions := setGroup st.sessionSubmissions inp.studentGroup
            [⟨inp.studentName, generateContentHash inp.examFiles⟩],
          penalizedArchiveEntry := none, gradingResult := some res,
          errorKind := none, notification := none, step := .results } := by
  unfold gradeCycle
  rw [hserv]
  simp only [hreg, findMatch, List.find?_nil, Option.map_none', recordSubmission,
    List.any_nil, Bool.false_eq_true, if_false, List.nil_append]

theorem handleArchiveResult_of_result (st : AppState) (res : GradingResult)
    (h : st.gradingResult = some res) :
    handleArchiveResult st =
      { st with
          archivedResults := res :: st.archivedResults,
          step := .studentInfo, gradingResult := none, errorKind := none,
          notification := none, penalizedArchiveEntry := none } := by
  unfold handleArchiveResult
  rw [h]

theorem gradeCycle_with_match (st : AppState) (inp : GradeInput) (nowId : String)
    (call : Nat → Except JsError RawJson) (res : GradingResult)
    (m hash : String) (rest : List SubmissionRecord)
    (orig : GradingResult) (tail : List GradingResult)
    (hreg : lookupGroup st.sessionSubmissions inp.studentGroup = ⟨m, hash⟩ :: rest)
    (hhash : generateContentHash inp.examFiles = hash)
    (hm : m ≠ inp.studentName)
    (harch : st.archivedResults = orig :: tail)
    (horigN : orig.studentName = m) (horigG : orig.studentGroup = inp.studentGroup)
    (htail : ∀ r ∈ tail, ¬(r.studentName = m ∧ r.studentGroup = inp.studentGroup))
    (hserv : gradeExamService st.apiKey inp.studentName inp.studentGroup inp.totalMarks
        inp.submissionTime nowId call = .ok res) :
    gradeCycle st inp nowId call =
      { st with
          archivedResults :=
            penalizeResult orig (cheatingPenaltyReason inp.studentName) :: tail,
          sessionSubmissions := recordSubmission st.sessionSubmissions inp.studentGroup
            ⟨inp.studentName, hash⟩,
          penalizedArchiveEntry :=
            some (orig, penalizeResult orig (cheatingPenaltyReason inp.studentName)),
          gradingResult := some res,
          errorKind := none,
          notification := some (cheatingNotification m),
          step := .results } := by
  have hbne : (m != inp.studentName) = true := by
    simpa [bne_iff_ne] using hm
  have horigCond : (orig.studentName == m && orig.studentGroup == inp.studentGroup) = true := by
    simp [horigN, horigG]
  have htailCond : ∀ r ∈ tail,
      ¬((r.studentName == m && r.studentGroup == inp.studentGroup) = true) := by
    intro r hr
    simpa [Bool.and_eq_true, beq_iff_eq, not_and] using htail r hr
  have htargets : penaltyTargets (orig :: tail) m inp.studentGroup = [orig] := by
    unfold penaltyTargets
    rw [List.filter_cons, if_pos horigCond, List.filter_eq_nil_iff.mpr htailCond]
  have hmap : applyPenalty (orig :: tail) m inp.studentGroup
      (cheatingPenaltyReason inp.studentName) =
      penalizeResult orig (cheatingPenaltyReason inp.studentName) :: tail := by
    unfold applyPenalty
    rw [List.map_cons, if_pos horigCond]
    congr 1
    conv_rhs => rw [← List.map_id tail]
    refine List.map_congr_left fun r hr => ?_
    rw [if_neg (htailCond r hr)]
    rfl
  have hfind : ((penalizeResult orig (cheatingPenaltyReason inp.studentName)) :: tail).find?
      (fun r => r.id == orig.id) =
      some (penalizeResult orig (cheatingPenaltyReason inp.studentName)) := by
    rw [List.find?_cons_of_pos _ (by simp [penalizeResult])]
  have hfindm : List.find?
      (fun sub => sub.contentHash == hash && sub.studentName != inp.studentName)
      (⟨m, hash⟩ :: rest) = some ⟨m, hash⟩ := by
    apply List.find?_cons_of_pos
    simp [hbne]
  have hlast : ([orig] : List GradingResult).getLast? = some orig := rfl
  unfold gradeCycle
  rw [hserv]
  simp only [hreg, hhash, findMatch, hfindm, Option.map_some', harch, htargets, hlast,
    hmap, hfind]

/-- The full state reached by grading student A, archiving the result, and
then grading a byte-identical submission by a different student B of the same
group: B's cycle finds A in the registry and rewrites A's archived entry. -/
theorem duplicate_scenario_state
    (st : AppState) (inpA inpB : GradeInput) (nowA nowB : String)
    (callA callB : Nat → Except JsError RawJson) (resA resB : GradingResult)
    (hGroup : inpB.studentGroup = inpA.studentGroup)
    (hFiles : inpB.examFiles = inpA.examFiles)
    (hNames : inpB.studentName ≠ inpA.studentName)
    (hReg : lookupGroup st.sessionSubmissions inpA.studentGroup = [])
    (hArch : ∀ r ∈ st.archivedResults,
        ¬(r.studentName = inpA.studentName ∧ r.studentGroup = inpA.studentGroup))
    (hA : gradeExamService st.apiKey inpA.studentName inpA.studentGroup inpA.totalMarks
        inpA.submissionTime nowA callA = .ok resA)
    (hB : gradeExamService st.apiKey inpB.studentName inpB.studentGroup inpB.totalMarks
        inpB.submissionTime nowB callB = .ok resB) :
    gradeCycle (handleArchiveResult (gradeCycle st inpA nowA callA)) inpB nowB callB =
      { st with
          archivedResults :=
            penalizeResult resA (cheatingPenaltyReason inpB.studentName) :: st.archivedResults,
          sessionSubmissions :=
            recordSubmission
              (setGroup st.sessionSubmissions inpA.studentGroup
                [⟨inpA.studentName, generateContentHash inpA.examFiles⟩])
              inpA.studentGroup
              ⟨inpB.studentName, generateContentHash inpA.examFiles⟩,
          penalizedArchiveEntry :=
            some (resA, penalizeResult resA (cheatingPenaltyReason inpB.studentName)),
          gradingResult := some resB,
          errorKind := none,
          notification := some (cheatingNotification inpA.studentName),
          step := .results } := by
  obtain ⟨rawA, -, hresA⟩ := gradeExamService_ok_inv hA
  have hAn : resA.studentName = inpA.studentName := by rw [hresA]; rfl
  have hAg : resA.studentGroup = inpA.studentGroup := by rw [hresA]; rfl
  have h2 : handleArchiveResult (gradeCycle st inpA nowA callA) =
      { st with
          archivedResults := resA :: st.archivedResults,
          sessionSubmissions := setGroup st.sessionSubmissions inpA.studentGroup
            [⟨inpA.studentName, generateContentHash inpA.examFiles⟩],
          penalizedArchiveEntry := none, gradingResult := none,
          errorKind := none, notification := none, step := .studentInfo } := by
    rw [gradeCycle_no_match st inpA nowA callA resA hReg hA,
      handleArchiveResult_of_result _ resA rfl]
  rw [h2]
  rw [gradeCycle_with_match
      { apiKey := st.apiKey, archivedResults := resA :: st.archivedResults,
        sessionSubmissions := setGroup st.sessionSubmissions inpA.studentGroup
          [⟨inpA.studentName, generateContentHash inpA.examFiles⟩],
        penalizedArchiveEntry := none, gradingResult := none, errorKind := none,
        notification := none, step := .studentInfo, showSettings := st.showSettings }
      inpB nowB callB resB inpA.studentName
      (generateContentHash inpA.examFiles) [] resA st.archivedResults
      (by rw [hGroup]; exact lookupGroup_setGroup_self _ _ _)
      (by rw [hFiles])
      (Ne.symm hNames)
      rfl
      hAn
      (hAg.trans hGroup.symm)
      (fun r hr => by rw [hGroup]; exact hArch r hr)
      hB]
  rw [hGroup]

/-! ### C1: the duplicate-content penalty -/

/-- C1: grading a second submission with identical file bytes but a different
student identifier in the same group (a) zeroes the score and all per-item
marks of the first student's archived result, (b) sets that entry's
integrity analysis to detected with the fixed templated reasoning string
naming the second student, and (c) leaves the second student's own returned
result exactly the service's normalized output, untouched by the penalty. -/
theorem duplicate_submission_penalty
    (st : AppState) (inpA inpB : GradeInput) (nowA nowB : String)
    (callA callB : Nat → Except JsError RawJson) (resA resB : GradingResult)
    (hGroup : inpB.studentGroup = inpA.studentGroup)
    (hFiles : inpB.examFiles = inpA.examFiles)
    (hNames : inpB.studentName ≠ inpA.studentName)
    (hReg : lookupGroup st.sessionSubmissions inpA.studentGroup = [])
    (hArch : ∀ r ∈ st.archivedResults,
        ¬(r.studentName = inpA.studentName ∧ r.studentGroup = inpA.studentGroup))
    (hA : gradeExamService st.apiKey inpA.studentName inpA.studentGroup inpA.totalMarks
        inpA.submissionTime nowA callA = .ok resA)
    (hB : gradeExamService st.apiKey inpB.studentName inpB.studentGroup inpB.totalMarks
        inpB.submissionTime nowB callB = .ok resB) :
    (gradeCycle (handleArchiveResult (gradeCycle st inpA nowA callA)) inpB nowB
          callB).archivedResults =
        penalizeResult resA (cheatingPenaltyReason inpB.studentName) :: st.archivedResults ∧
      (penalizeResult resA (cheatingPenaltyReason inpB.studentName)).score = 0 ∧
      (∀ fb ∈ (penalizeResult resA (cheatingPenaltyReason inpB.studentName)).detailedFeedback,
        fb.marksAwarded = 0) ∧
      (penalizeResult resA (cheatingPenaltyReason inpB.studentName)).cheatingAnalysis =
        { detected := true, reasoning := cheatingPenaltyReason inpB.studentName } ∧
      (gradeCycle (handleArchiveResult (gradeCycle st inpA nowA callA)) inpB nowB
          callB).gradingResult = some resB ∧
      (gradeCycle (handleArchiveResult (gradeCycle st inpA nowA callA)) inpB nowB
          callB).penalizedArchiveEntry =
        some (resA, penalizeResult resA (cheatingPenaltyReason inpB.studentName)) := by
  rw [duplicate_scenario_state st inpA inpB nowA nowB callA callB resA resB hGroup hFiles
    hNames hReg hArch hA hB]
  refine ⟨rfl, rfl, ?_, rfl, rfl, rfl⟩
  intro fb hfb
  unfold penalizeResult at hfb
  obtain ⟨x, -, rfl⟩ := List.mem_map.mp hfb
  rfl

/-- Witness for C1: alice is graded and archived, bob submits the same bytes;
alice's archived entry is zeroed and flagged, bob's result is untouched. -/
theorem duplicate_submission_penalty_witness :
    sampleDupState.archivedResults = [samplePenalized] ∧
      samplePenalized.score = 0 ∧
      (∀ fb ∈ samplePenalized.detailedFeedback, fb.marksAwarded = 0) ∧
      samplePenalized.cheatingAnalysis =
        { detected := true, reasoning := cheatingPenaltyReason "bob" } ∧
      sampleDupState.gradingResult = some sampleResB ∧
      sampleDupState.penalizedArchiveEntry = some (sampleResA, samplePenalized) := by
  have h := duplicate_submission_penalty sampleState sampleInputA sampleInputB "tA" "tB"
    sampleCallA sampleCallB sampleResA sampleResB rfl rfl (by decide) rfl
    (by simp [sampleState]) rfl rfl
  exact h

/-! ### C3: restore reverts the penalty -/

/-- C3: applying restore while the penalty transaction is pending reverts the
penalized archived entry to a byte-for-byte copy of its pre-penalty state —
penalty followed by restore is the identity on the whole archive — and
clears the pending transaction. -/
theorem penalty_restore_roundtrip
    (st : AppState) (inpA inpB : GradeInput) (nowA nowB : String)
    (callA callB : Nat → Except JsError RawJson) (resA resB : GradingResult)
    (hGroup : inpB.studentGroup = inpA.studentGroup)
    (hFiles : inpB.examFiles = inpA.examFiles)
    (hNames : inpB.studentName ≠ inpA.studentName)
    (hReg : lookupGroup st.sessionSubmissions inpA.studentGroup = [])
    (hArch : ∀ r ∈ st.archivedResults,
        ¬(r.studentName = inpA.studentName ∧ r.studentGroup = inpA.studentGroup))
    (hA : gradeExamService st.apiKey inpA.studentName inpA.studentGroup inpA.totalMarks
        inpA.submissionTime nowA callA = .ok resA)
    (hB : gradeExamService st.apiKey inpB.studentName inpB.studentGroup inpB.totalMarks
        inpB.submissionTime nowB callB = .ok resB)
    (hIds : ∀ r ∈ st.archivedResults, r.id ≠ resA.id) :
    handleRestoreArchivedResult
        (gradeCycle (handleArchiveResult (gradeCycle st inpA nowA callA)) inpB nowB callB) =
      { st with
          archivedResults := resA :: st.archivedResults,
          sessionSubmissions :=
            recordSubmission
              (setGroup st.sessionSubmissions inpA.studentGroup
                [⟨inpA.studentName, generateContentHash inpA.examFiles⟩])
              inpA.studentGroup
              ⟨inpB.studentName, generateContentHash inpA.examFiles⟩,
          penalizedArchiveEntry := none,
          gradingResult := some resB,
          errorKind := none,
          notification := some (restoreNotification resA.studentName),
          step := .results } := by
  rw [duplicate_scenario_state st inpA inpB nowA nowB callA callB resA resB hGroup hFiles
    hNames hReg hArch hA hB]
  unfold handleRestoreArchivedResult
  have hmap : (penalizeResult resA (cheatingPenaltyReason inpB.studentName) ::
      st.archivedResults).map
        (fun res => if res.id == resA.id then resA else res) = resA :: st.archivedResults := by
    rw [List.map_cons, if_pos (by simp [penalizeResult])]
    congr 1
    conv_rhs => rw [← List.map_id st.archivedResults]
    refine List.map_congr_left fun r hr => ?_
    rw [if_neg (by simpa using hIds r hr)]
    rfl
  simp only [hmap]

/-- Witness for C3: after bob's duplicate triggers the penalty, restore
returns the archive to exactly alice's original result and clears the
transaction. -/
theorem penalty_restore_roundtrip_witness :
    (handleRestoreArchivedResult sampleDupState).archivedResults = [sampleResA] ∧
      (handleRestoreArchivedResult sampleDupState).penalizedArchiveEntry = none := by
  have h := penalty_restore_roundtrip sampleState sampleInputA sampleInputB "tA" "tB"
    sampleCallA sampleCallB sampleResA sampleResB rfl rfl (by decide) rfl
    (by simp [sampleState]) rfl rfl (by simp [sampleState])
  constructor
  · unfold sampleDupState
    rw [h]
    rfl
  · unfold sampleDupState
    rw [h]

/-! ### C4: fingerprint order-independence -/

theorem eq_of_perm_of_sorted_nodup_names :
    ∀ l₁ l₂ : List FileData, l₁.Perm l₂ →
      l₁.Pairwise fileLE → l₂.Pairwise fileLE →
      (l₁.map FileData.name).Nodup → l₁ = l₂
  | [], l₂, hp, _, _, _ => (hp.symm.eq_nil).symm
  | a :: t, [], hp, _, _, _ => absurd hp.eq_nil (by simp)
  | a :: t, b :: t₂, hp, hs₁, hs₂, hnd => by
    have hab : a = b := by
      by_contra hne
      have hbmem : b ∈ a :: t := hp.symm.subset (List.mem_cons_self _ _)
      have hamem : a ∈ b :: t₂ := hp.subset (List.mem_cons_self _ _)
      have hbt : b ∈ t := by
        rcases List.mem_cons.mp hbmem with h | h
        · exact absurd h.symm hne
        · exact h
      have hat : a ∈ t₂ := by
        rcases List.mem_cons.mp hamem with h | h
        · exact absurd h hne
        · exact h
      have h₁ : fileLE a b := (List.pairwise_cons.mp hs₁).1 b hbt
      have h₂ : fileLE b a := (List.pairwise_cons.mp hs₂).1 a hat
      have hname : a.name = b.name := fileLE_antisymm_names h₁ h₂
      have : a.name ∉ t.map FileData.name := by
        simpa using (List.nodup_cons.mp hnd).1
      exact this (hname ▸ List.mem_map_of_mem _ hbt)
    subst hab
    have htp : t.Perm t₂ := hp.cons_inv
    rw [eq_of_perm_of_sorted_nodup_names t t₂ htp (List.pairwise_cons.mp hs₁).2
      (List.pairwise_cons.mp hs₂).2 (List.nodup_cons.mp hnd).2]

/-- C4 (amended): for files with pairwise-distinct names, the content
fingerprint is invariant under permutation of the input list — the sort by
name canonicalizes the order before hashing.  (With duplicate names the
stable sort preserves input order among the ties, so the claim's unrestricted
form fails; see the counterexample.) -/
theorem fingerprint_permutation_invariant
    (l₁ l₂ : List FileData) (hperm : l₁.Perm l₂)
    (hnodup : (l₁.map FileData.name).Nodup) :
    generateContentHash l₁ = generateContentHash l₂ := by
  have hsort : sortFilesByName l₁ = sortFilesByName l₂ := by
    haveI : IsTotal FileData fileLE := ⟨fun a b => lexLe_total _ _⟩
    haveI : IsTrans FileData fileLE := ⟨fun _ _ _ h₁ h₂ => lexLe_trans _ _ _ h₁ h₂⟩
    apply eq_of_perm_of_sorted_nodup_names
    · exact (List.perm_insertionSort _ l₁).trans
        (hperm.trans (List.perm_insertionSort _ l₂).symm)
    · exact List.sorted_insertionSort _ l₁
    · exact List.sorted_insertionSort _ l₂
    · exact (((List.perm_insertionSort _ l₁).map FileData.name).nodup_iff).mpr hnodup
  unfold generateContentHash combinedBuffer
  rw [hsort]

/-- Counterexample to C4 as stated: two files that share a name but differ in
bytes.  The stable sort keeps the input order of the tied names, so the two
orders concatenate to different buffers and hash to different digests —
input-list order does affect the result. -/
theorem fingerprint_not_order_independent :
    List.Perm [(⟨"a", [0]⟩ : FileData), ⟨"a", [1]⟩] [⟨"a", [1]⟩, ⟨"a", [0]⟩] ∧
      generateContentHash [⟨"a", [0]⟩, ⟨"a", [1]⟩] ≠
        generateContentHash [⟨"a", [1]⟩, ⟨"a", [0]⟩] :=
  ⟨List.Perm.swap _ _ _, by decide⟩

/-- Witness for the amended C4: distinct names, permuted input, equal
fingerprints. -/
theorem fingerprint_permutation_invariant_witness :
    List.Perm [(⟨"b", [1, 2]⟩ : FileData), ⟨"a", [3]⟩] [⟨"a", [3]⟩, ⟨"b", [1, 2]⟩] ∧
      ([(⟨"b", [1, 2]⟩ : FileData), ⟨"a", [3]⟩].map FileData.name).Nodup ∧
      generateContentHash [⟨"b", [1, 2]⟩, ⟨"a", [3]⟩] =
        generateContentHash [⟨"a", [3]⟩, ⟨"b", [1, 2]⟩] :=
  ⟨List.Perm.swap _ _ _, by decide,
   fingerprint_permutation_invariant _ _ (List.Perm.swap _ _ _) (by decide)⟩

end ExamGrader
